import Mathlib

/-!
Shallow embedding of `src/lambdas/es/indexer/document_queue.py`:
the in-memory `DocumentQueue` accumulator, its `append` /
`append_document` operations, and the `send_all` flush with its
one-retry bulk protocol.  Network calls (`bulk_send`) are modelled by
oracle responses: the caller of `sendAll` supplies the failure list
each bulk dispatch would return (`r1` for the first dispatch, `r2` for
the second), and the model counts how many dispatches are issued.
-/

/-- Modelled from the spec: `ELASTIC_LIMIT_BYTES` is imported by the source
from `t4_lambda_shared.preview`, which is not under `src/`; the spec calls it
the text-size-cap.  No claim depends on its numeric value, only on it being a
fixed constant, so we pick a concrete one. -/
def ELASTIC_LIMIT_BYTES : Nat := 100000

/-- Source constant `QUEUE_LIMIT_BYTES = 100_000_000`. -/
def QUEUE_LIMIT_BYTES : Nat := 100000000

/-- Source dict `EVENT_PREFIX["Created"]`. -/
def createdPref : String := "ObjectCreated:"

/-- Source dict `EVENT_PREFIX["Removed"]`. -/
def removedPref : String := "ObjectRemoved:"

/-- The `_op_type` field of a document: either `"index"` or `"delete"`. -/
inductive OpType where
  | index
  | delete
deriving DecidableEq, Repr

/-- Python `str.startswith`, as the source uses it on event types:
a character-level prefix test (stated on the underlying character lists
so that concrete instances evaluate). -/
def pyStartsWith (s pre : String) : Bool :=
  pre.data.isPrefixOf s.data

/-- The body dict built by `DocumentQueue.append` (one Elasticsearch
document).  Field names follow the source keys, with the leading
underscore dropped (`_id` becomes `id`, `_index` becomes `index`,
`_op_type` becomes `opType`); `updated` holds the `datetime.utcnow()`
timestamp, passed in as data since the model is pure. -/
structure Doc where
  id : String
  index : String
  opType : OpType
  comment : String
  content : String
  etag : String
  event : String
  ext : String
  key : String
  lastModified : String
  metaText : String
  size : Nat
  target : String
  updated : String
  versionId : Option String
deriving DecidableEq, Repr

/-- State of a `DocumentQueue` instance: `self.queue` and `self.size`
(the `context` field only tunes network backoff and is not modelled). -/
structure DocumentQueue where
  queue : List Doc
  size : Nat
deriving DecidableEq, Repr

/-- Python truthiness of `doc["content"]` gates the size update in
`append_document`: a document contributes `min(doc["size"],
ELASTIC_LIMIT_BYTES)` when its content is non-empty and 0 otherwise. -/
def contrib (d : Doc) : Nat :=
  if d.content = "" then 0 else min d.size ELASTIC_LIMIT_BYTES

/-- Sum of the per-document byte contributions over a queue. -/
def sumContrib (q : List Doc) : Nat :=
  (q.map contrib).sum

/-- Source `DocumentQueue.append_document`: bump `self.size` when the
content is non-empty, then push the document on `self.queue`. -/
def appendDocument (st : DocumentQueue) (d : Doc) : DocumentQueue :=
  { queue := st.queue ++ [d], size := st.size + contrib d }

/-- One failure entry of a bulk response, as the source reads it: an
optional `"index"` key and an optional `"delete"` key, each holding an
inner dict whose optional `"_id"` we keep (`some (some i)` = key
present with `_id` `i`; `some none` = key present, `_id` absent;
`none` = key absent). -/
structure BulkErr where
  index : Option (Option String)
  delete : Option (Option String)
deriving DecidableEq, Repr

/-- The inner dict the source ends up reading from a failure entry:
`inner = error["index"]` is overwritten by `inner = error["delete"]`
when both keys are present, and no inner dict exists when neither key
is present. -/
def innerOf (e : BulkErr) : Option (Option String) :=
  match e.delete with
  | some i => some i
  | none => e.index

/-- Source `id_to_doc = {d["_id"]: d for d in self.queue}`: a dict
comprehension keeps the last document for each identifier, so lookup
finds the last occurrence. -/
def idToDoc (q : List Doc) (i : String) : Option Doc :=
  q.reverse.find? (fun d => d.id == i)

/-- Exceptions `send_all` can raise: the explicit `RetryError`, and the
`KeyError` from `id_to_doc[inner["_id"]]` when the identifier is not in
the map. -/
inductive SendErr where
  | retryError
  | keyError
deriving DecidableEq, Repr

/-- State of the retry-classification loop in `send_all`.  In Python,
`send_again` starts as a fresh list; per-document errors `append` to
whatever list `send_again` currently names; a batch-level error rebinds
`send_again = self.queue`, aliasing it to the live queue, so later
appends also extend `self.queue`.  We track: `fresh` (contents of the
fresh list while unaliased), `post` (documents appended after the alias
was created, which extend both `send_again` and `self.queue`), and
`aliased` (whether `send_again` currently aliases `self.queue`). -/
structure RetryAcc where
  fresh : List Doc
  post : List Doc
  aliased : Bool
deriving DecidableEq, Repr

/-- Initial classification state: `send_again = []`. -/
def initAcc : RetryAcc := ⟨[], [], false⟩

/-- The list `send_again` denotes at the end of the loop: the queue
(followed by post-alias appends) when aliased, the fresh list otherwise. -/
def sendAgainOf (q0 : List Doc) (a : RetryAcc) : List Doc :=
  if a.aliased then q0 ++ a.post else a.fresh

/-- The list `self.queue` denotes at the end of the loop: unchanged when
never aliased, extended by the post-alias appends otherwise. -/
def queueAfter (q0 : List Doc) (a : RetryAcc) : List Doc :=
  if a.aliased then q0 ++ a.post else q0

/-- One iteration of the `for error in errors` loop of `send_all`:
an entry with an `index` or `delete` key whose inner dict carries an
`_id` appends the looked-up document to `send_again` (raising `KeyError`
when the identifier is unknown); an entry with such a key but no `_id`
does nothing; an entry with neither key rebinds `send_again` to the
whole queue. -/
def classifyStep (q0 : List Doc) (acc : RetryAcc) (e : BulkErr) :
    Except SendErr RetryAcc :=
  match innerOf e with
  | none => Except.ok { acc with fresh := [], aliased := true }
  | some none => Except.ok acc
  | some (some i) =>
    match idToDoc q0 i with
    | none => Except.error SendErr.keyError
    | some d =>
      if acc.aliased then Except.ok { acc with post := acc.post ++ [d] }
      else Except.ok { acc with fresh := acc.fresh ++ [d] }

/-- The whole classification loop; stops at the first raised exception,
returning the loop state reached at that point. -/
def classifyLoop (q0 : List Doc) :
    List BulkErr → RetryAcc → RetryAcc × Option SendErr
  | [], acc => (acc, none)
  | e :: es, acc =>
    match classifyStep q0 acc e with
    | Except.ok acc' => classifyLoop q0 es acc'
    | Except.error err => (acc, some err)

/-- Outcome of one `send_all` call: the resulting state, the exception
raised (if any), and how many bulk dispatches were issued. -/
structure SendResult where
  state : DocumentQueue
  err : Option SendErr
  dispatches : Nat
deriving DecidableEq, Repr

/-- Source `DocumentQueue.send_all`, with the two possible bulk-response
failure lists supplied as oracles `r1` and `r2`.  Empty queue: return at
once.  Otherwise dispatch once; an empty failure list falls through to
the reset.  A non-empty failure list is classified; a non-empty
`send_again` triggers the single second dispatch, whose own non-empty
failure list raises `RetryError`.  Reaching the end resets `self.size`
and `self.queue`. -/
def sendAll (st : DocumentQueue) (r1 r2 : List BulkErr) : SendResult :=
  if st.queue = [] then ⟨st, none, 0⟩
  else if r1 = [] then ⟨⟨[], 0⟩, none, 1⟩
  else
    match classifyLoop st.queue r1 initAcc with
    | (acc, some e) => ⟨⟨queueAfter st.queue acc, st.size⟩, some e, 1⟩
    | (acc, none) =>
      if sendAgainOf st.queue acc = [] then ⟨⟨[], 0⟩, none, 1⟩
      else if r2 = [] then ⟨⟨[], 0⟩, none, 2⟩
      else ⟨⟨queueAfter st.queue acc, st.size⟩, some SendErr.retryError, 2⟩

/-- The `version_id` argument of `append` as Python receives it: a
string, `None`, or a value of any other type (which `isinstance`
rejects). -/
inductive VersionArg where
  | vstr (s : String)
  | vnone
  | vother
deriving DecidableEq, Repr

/-- The version as carried in the document once the `isinstance` check
passed. -/
def vOptOf : VersionArg → Option String
  | VersionArg.vstr s => some s
  | _ => none

/-- Python rendering of the version inside the f-string
`f"{key}:{version_id}"`: a string renders as itself and `None` renders
as the four characters `None`. -/
def pyStr : Option String → String
  | some s => s
  | none => "None"

/-- The document identifier `append` derives: `f"{key}:{version_id}"`. -/
def docId (key : String) (v : Option String) : String :=
  key ++ ":" ++ pyStr v

/-- Arguments of `DocumentQueue.append` (keyword arguments of the
source), plus `now` standing for `datetime.utcnow().isoformat()`. -/
structure AppendArgs where
  eventType : String
  size : Nat
  lastModified : String
  bucket : String
  ext : String
  key : String
  text : String
  etag : String
  versionId : VersionArg
  now : String
deriving DecidableEq, Repr

/-- The `body` dict `append` builds (after the `isinstance` check
passed, so the version is a string or `None`).  `_op_type` is
`"delete"` exactly when the event type starts with the `Removed`
prefix, and `content` is the `text` argument unchanged. -/
def buildBody (a : AppendArgs) : Doc :=
  { id := docId a.key (vOptOf a.versionId)
    index := a.bucket
    opType := if pyStartsWith a.eventType removedPref then OpType.delete
              else OpType.index
    comment := ""
    content := a.text
    etag := a.etag
    event := a.eventType
    ext := a.ext
    key := a.key
    lastModified := a.lastModified
    metaText := ""
    size := a.size
    target := ""
    updated := a.now
    versionId := vOptOf a.versionId }

/-- Exceptions `append` can raise: the `ValueError` for an ill-typed
`version_id`, or an exception propagated from the flush. -/
inductive AppendErr where
  | valueError
  | send (e : SendErr)
deriving DecidableEq, Repr

/-- Outcome of one `append` call: resulting state, exception raised (if
any), bulk dispatches issued, and `send_all` invocations performed. -/
structure AppendResult where
  state : DocumentQueue
  err : Option AppendErr
  dispatches : Nat
  flushes : Nat
deriving DecidableEq, Repr

/-- Source `DocumentQueue.append`: reject an ill-typed `version_id`
before anything else; skip events that start with neither recognized
prefix; otherwise build the body, queue it through `append_document`,
and flush once via `send_all` when the new total reaches
`QUEUE_LIMIT_BYTES`. -/
def append (st : DocumentQueue) (a : AppendArgs) (r1 r2 : List BulkErr) :
    AppendResult :=
  if a.versionId = VersionArg.vother then ⟨st, some AppendErr.valueError, 0, 0⟩
  else if pyStartsWith a.eventType createdPref ∨
          pyStartsWith a.eventType removedPref then
    let st1 := appendDocument st (buildBody a)
    if QUEUE_LIMIT_BYTES ≤ st1.size then
      let r := sendAll st1 r1 r2
      ⟨r.state, r.err.map AppendErr.send, r.dispatches, 1⟩
    else ⟨st1, none, 0, 0⟩
  else ⟨st, none, 0, 0⟩

/-- Operations a client can perform on the accumulator (the arguments of
an `append` include the oracle bulk responses consumed if that append
flushes). -/
inductive QOp where
  | opAppend (a : AppendArgs) (r1 r2 : List BulkErr)
  | opAppendDoc (d : Doc)
deriving Repr

/-- Run a sequence of operations from a state, counting bulk dispatches;
`none` when an operation raises (the invocation aborts there).
`append_document` contains no dispatch and cannot raise. -/
def runOps : DocumentQueue → List QOp → Option (DocumentQueue × Nat)
  | st, [] => some (st, 0)
  | st, QOp.opAppend a r1 r2 :: ops =>
    let r := append st a r1 r2
    match r.err with
    | none =>
      match runOps r.state ops with
      | some (st', n) => some (st', r.dispatches + n)
      | none => none
    | some _ => none
  | st, QOp.opAppendDoc d :: ops =>
    match runOps (appendDocument st d) ops with
    | some (st', n) => some (st', n)
    | none => none

/-- A fresh accumulator: `self.queue = []`, `self.size = 0`. -/
def initQueue : DocumentQueue := ⟨[], 0⟩

/-! ### Helper lemmas shared between claims -/

/-- Sample concrete document used in witnesses. -/
def sampleDoc : Doc :=
  { id := "k:v", index := "b", opType := OpType.index, comment := ""
    content := "hello", etag := "e", event := "ObjectCreated:Put", ext := ".txt"
    key := "k", lastModified := "2020", metaText := "", size := 5
    target := "", updated := "t", versionId := some "v" }

lemma queueAfter_ne_nil (q0 : List Doc) (a : RetryAcc) (h : q0 ≠ []) :
    queueAfter q0 a ≠ [] := by
  unfold queueAfter
  split
  · simp [h]
  · exact h

lemma sendAll_ok_reset (st : DocumentQueue) (r1 r2 : List BulkErr)
    (hq : st.queue ≠ []) (h : (sendAll st r1 r2).err = none) :
    (sendAll st r1 r2).state = ⟨[], 0⟩ := by
  by_cases h2 : r1 = []
  · simp [sendAll, hq, h2]
  · rcases hc : classifyLoop st.queue r1 initAcc with ⟨acc, err⟩
    cases err with
    | some e => simp [sendAll, hq, h2, hc] at h
    | none =>
      by_cases h3 : sendAgainOf st.queue acc = []
      · simp [sendAll, hq, h2, hc, h3]
      · by_cases h4 : r2 = []
        · simp [sendAll, hq, h2, hc, h3, h4]
        · simp [sendAll, hq, h2, hc, h3, h4] at h

/-! ### C1, C9: flush protocol -/

/-- C1: within one `send_all` flush, at most one bulk dispatch beyond the
first is issued — the dispatch count never exceeds two — and when the
second dispatch happens and returns a non-empty failure list, the flush
terminates with the fatal `RetryError`. -/
theorem sendAll_retry_bound (st : DocumentQueue) (r1 r2 : List BulkErr) :
    (sendAll st r1 r2).dispatches ≤ 2 ∧
    ((sendAll st r1 r2).dispatches = 2 → r2 ≠ [] →
      (sendAll st r1 r2).err = some SendErr.retryError) := by
  by_cases h1 : st.queue = []
  · simp [sendAll, h1]
  · by_cases h2 : r1 = []
    · simp [sendAll, h1, h2]
    · rcases hc : classifyLoop st.queue r1 initAcc with ⟨acc, err⟩
      cases err with
      | some e => simp [sendAll, h1, h2, hc]
      | none =>
        by_cases h3 : sendAgainOf st.queue acc = []
        · simp [sendAll, h1, h2, hc, h3]
        · by_cases h4 : r2 = []
          · simp [sendAll, h1, h2, hc, h3, h4]
          · simp [sendAll, h1, h2, hc, h3, h4]

/-- Witness for C1: a concrete flush whose first response is one
unattributable failure and whose second response is again non-empty
issues exactly two dispatches and raises `RetryError`. -/
theorem sendAll_retry_bound_witness :
    (sendAll ⟨[sampleDoc], 5⟩ [⟨none, none⟩] [⟨none, none⟩]).dispatches ≤ 2 ∧
    (sendAll ⟨[sampleDoc], 5⟩ [⟨none, none⟩] [⟨none, none⟩]).err =
      some SendErr.retryError :=
  ⟨(sendAll_retry_bound ⟨[sampleDoc], 5⟩ [⟨none, none⟩] [⟨none, none⟩]).1,
   (sendAll_retry_bound ⟨[sampleDoc], 5⟩ [⟨none, none⟩] [⟨none, none⟩]).2
     (by decide) (by decide)⟩

/-- C9: `send_all` resets `self.queue` and `self.size` exactly when the
flush completes without a fatal outcome: under the accounting premise
that an empty queue carries a zero total, normal completion leaves an
empty queue and a zero total, while a flush raising the fatal
`RetryError` leaves the total untouched and the queue non-empty (no
reset happens). -/
theorem sendAll_reset_iff_no_fatal (st : DocumentQueue) (r1 r2 : List BulkErr)
    (h0 : st.queue = [] → st.size = 0) :
    ((sendAll st r1 r2).err = none →
      (sendAll st r1 r2).state.queue = [] ∧ (sendAll st r1 r2).state.size = 0) ∧
    ((sendAll st r1 r2).err = some SendErr.retryError →
      (sendAll st r1 r2).state.size = st.size ∧
      (sendAll st r1 r2).state.queue ≠ []) := by
  by_cases h1 : st.queue = []
  · simp [sendAll, h1, h0 h1]
  · constructor
    · intro h
      rw [sendAll_ok_reset st r1 r2 h1 h]
      exact ⟨rfl, rfl⟩
    · intro h
      by_cases h2 : r1 = []
      · simp [sendAll, h1, h2] at h
      · rcases hc : classifyLoop st.queue r1 initAcc with ⟨acc, err⟩
        cases err with
        | some e =>
          have := queueAfter_ne_nil st.queue acc h1
          simp [sendAll, h1, h2, hc, this]
        | none =>
          by_cases h3 : sendAgainOf st.queue acc = []
          · simp [sendAll, h1, h2, hc, h3] at h
          · by_cases h4 : r2 = []
            · simp [sendAll, h1, h2, hc, h3, h4] at h
            · refine ⟨by simp [sendAll, h1, h2, hc, h3, h4], ?_⟩
              have := queueAfter_ne_nil st.queue acc h1
              simp [sendAll, h1, h2, hc, h3, h4, this]

/-- Witness for C9: on a concrete one-document queue whose first bulk
response is clean, the flush completes and resets both fields. -/
theorem sendAll_reset_iff_no_fatal_witness :
    (sendAll ⟨[sampleDoc], 5⟩ [] []).state.queue = [] ∧
    (sendAll ⟨[sampleDoc], 5⟩ [] []).state.size = 0 :=
  (sendAll_reset_iff_no_fatal ⟨[sampleDoc], 5⟩ [] [] (by decide)).1 (by decide)

/-! ### C8: version id type guard; C10: append_document never flushes -/

/-- C8: `append` raises `ValueError` exactly when the `version_id`
argument is neither a string nor `None`, and in that case it performs no
dispatch, no flush, and leaves the state untouched. -/
theorem version_guard (st : DocumentQueue) (a : AppendArgs)
    (r1 r2 : List BulkErr) :
    ((append st a r1 r2).err = some AppendErr.valueError ↔
      a.versionId = VersionArg.vother) ∧
    (a.versionId = VersionArg.vother →
      (append st a r1 r2).state = st ∧ (append st a r1 r2).dispatches = 0 ∧
      (append st a r1 r2).flushes = 0) := by
  by_cases hv : a.versionId = VersionArg.vother
  · simp [append, hv]
  · refine ⟨?_, fun h => absurd h hv⟩
    by_cases he : pyStartsWith a.eventType createdPref ∨
        pyStartsWith a.eventType removedPref
    · by_cases hl : QUEUE_LIMIT_BYTES ≤ (appendDocument st (buildBody a)).size
      · cases hE : (sendAll (appendDocument st (buildBody a)) r1 r2).err with
        | none => simp [append, hv, he, hl, hE]
        | some e => simp [append, hv, he, hl, hE]
      · simp [append, hv, he, hl]
    · simp [append, hv, he]

/-- Witness for C8: a concrete `append` whose `version_id` is of an
unexpected type raises `ValueError` and changes nothing. -/
theorem version_guard_witness :
    (append initQueue
      ⟨"ObjectCreated:Put", 5, "lm", "b", ".txt", "k", "hello", "e",
        VersionArg.vother, "t"⟩ [] []).err = some AppendErr.valueError ∧
    (append initQueue
      ⟨"ObjectCreated:Put", 5, "lm", "b", ".txt", "k", "hello", "e",
        VersionArg.vother, "t"⟩ [] []).state = initQueue :=
  ⟨(version_guard initQueue
      ⟨"ObjectCreated:Put", 5, "lm", "b", ".txt", "k", "hello", "e",
        VersionArg.vother, "t"⟩ [] []).1.mpr rfl,
   ((version_guard initQueue
      ⟨"ObjectCreated:Put", 5, "lm", "b", ".txt", "k", "hello", "e",
        VersionArg.vother, "t"⟩ [] []).2 rfl).1⟩

/-- C10: `append_document` queues the document and updates the byte
total but issues no dispatch and performs no threshold check, even when
the updated total meets or exceeds `QUEUE_LIMIT_BYTES`. -/
theorem append_document_no_flush (st : DocumentQueue) (d : Doc) :
    runOps st [QOp.opAppendDoc d] =
      some (⟨st.queue ++ [d], st.size + contrib d⟩, 0) ∧
    (QUEUE_LIMIT_BYTES ≤ st.size + contrib d →
      runOps st [QOp.opAppendDoc d] = some (appendDocument st d, 0)) := by
  constructor
  · rfl
  · intro _
    rfl

/-- Witness for C10: re-queueing a document onto a state already at the
byte ceiling still performs zero dispatches. -/
theorem append_document_no_flush_witness :
    QUEUE_LIMIT_BYTES ≤ QUEUE_LIMIT_BYTES + contrib sampleDoc ∧
    runOps ⟨[], QUEUE_LIMIT_BYTES⟩ [QOp.opAppendDoc sampleDoc] =
      some (appendDocument ⟨[], QUEUE_LIMIT_BYTES⟩ sampleDoc, 0) :=
  ⟨Nat.le_add_right _ _,
   (append_document_no_flush ⟨[], QUEUE_LIMIT_BYTES⟩ sampleDoc).2
     (Nat.le_add_right _ _)⟩

/-! ### C6: identifier derivation; C7: delete documents -/

/-- Identifier derivation as the claim words it: `key + ":" +
versionOrEmpty`, rendering an absent version id as the empty string.
This follows the spec text, for comparison against `docId`, which
follows the source f-string. -/
def claimedId (key : String) (v : Option String) : String :=
  key ++ ":" ++ v.getD ""

/-- Concrete `append` arguments with an absent (Python `None`) version
id. -/
def noneVersionArgs : AppendArgs :=
  ⟨"ObjectCreated:Put", 5, "lm", "b", ".txt", "k", "hello", "e",
    VersionArg.vnone, "t"⟩

/-- Counterexample for C6: with key `"k"` and an absent version id, the
source derives the identifier `"k:None"` (Python renders `None` inside
an f-string as the text `None`), not `"k:"` as the claimed
`key + ":" + versionOrEmpty` derivation gives. -/
theorem docId_none_counterexample :
    (buildBody noneVersionArgs).id = "k:None" ∧
    claimedId "k" (vOptOf noneVersionArgs.versionId) = "k:" ∧
    (buildBody noneVersionArgs).id ≠
      claimedId "k" (vOptOf noneVersionArgs.versionId) := by
  refine ⟨rfl, rfl, ?_⟩
  decide

/-- C6 amended: the identifier is `key + ":" + render(version)` where a
string version renders as itself and an absent version renders as the
text `None`.  The derivation is deterministic (same key and version give
the same identifier), and two distinct present version ids of the same
key give distinct identifiers (only an absent version can collide, with
the literal string version `"None"`). -/
theorem docId_amended :
    (∀ a : AppendArgs, (buildBody a).id = docId a.key (vOptOf a.versionId)) ∧
    (∀ (k : String) (v1 v2 : Option String), v1 = v2 →
      docId k v1 = docId k v2) ∧
    (∀ (k s1 s2 : String), s1 ≠ s2 →
      docId k (some s1) ≠ docId k (some s2)) := by
  refine ⟨fun a => rfl, fun k v1 v2 h => by rw [h], ?_⟩
  intro k s1 s2 hne h
  apply hne
  have hd := congrArg String.data h
  simp only [docId, pyStr, String.data_append] at hd
  exact String.ext (List.append_cancel_left hd)

/-- Witness for C6 amended: concrete instances of all three parts. -/
theorem docId_amended_witness :
    (buildBody noneVersionArgs).id =
      docId noneVersionArgs.key (vOptOf noneVersionArgs.versionId) ∧
    docId "k" (some "v") = docId "k" (some "v") ∧
    docId "k" (some "v1") ≠ docId "k" (some "v2") :=
  ⟨docId_amended.1 noneVersionArgs,
   docId_amended.2.1 "k" (some "v") (some "v") rfl,
   docId_amended.2.2 "k" "v1" "v2" (by decide)⟩

/-- Concrete `append` arguments for a `Removed` event carrying non-empty
extracted text. -/
def removedArgs : AppendArgs :=
  ⟨"ObjectRemoved:Delete", 5, "lm", "b", ".txt", "k", "some text", "e",
    VersionArg.vstr "v", "t"⟩

/-- Counterexample for C7: a `Removed` event whose `text` argument is
`"some text"` is queued by `append` as a document whose operation is
`delete` but whose content is the non-empty `"some text"` — `append`
does not clear the text of delete documents. -/
theorem delete_text_counterexample :
    (append initQueue removedArgs [] []).state.queue =
      [buildBody removedArgs] ∧
    (buildBody removedArgs).opType = OpType.delete ∧
    (buildBody removedArgs).content = "some text" ∧
    (buildBody removedArgs).content ≠ "" := by
  refine ⟨?_, rfl, rfl, by decide⟩
  rfl

/-- C7 amended: the document `append` builds carries operation `delete`
exactly when the event type starts with the `Removed` prefix, and its
content is always the `text` argument unchanged (clearing text for
deletes is the caller's responsibility, not `append`'s). -/
theorem delete_op_amended (a : AppendArgs) :
    ((buildBody a).opType = OpType.delete ↔
      pyStartsWith a.eventType removedPref) ∧
    (buildBody a).content = a.text := by
  refine ⟨?_, rfl⟩
  by_cases h : pyStartsWith a.eventType removedPref
  · simp [buildBody, h]
  · simp [buildBody, h]

/-- Witness for C7 amended: on the concrete `Removed` arguments, the
built document has the `delete` operation and keeps the passed text. -/
theorem delete_op_amended_witness :
    (buildBody removedArgs).opType = OpType.delete ∧
    (buildBody removedArgs).content = removedArgs.text :=
  ⟨(delete_op_amended removedArgs).1.mpr (by decide),
   (delete_op_amended removedArgs).2⟩

/-! ### C2, C3: retry classification -/

lemma classifyStep_unknown (q0 : List Doc) (acc : RetryAcc) (e : BulkErr)
    (h : innerOf e = none) :
    classifyStep q0 acc e =
      Except.ok { acc with fresh := [], aliased := true } := by
  simp [classifyStep, h]

lemma classifyStep_skip (q0 : List Doc) (acc : RetryAcc) (e : BulkErr)
    (h : innerOf e = some none) : classifyStep q0 acc e = Except.ok acc := by
  simp [classifyStep, h]

lemma classifyStep_doc (q0 : List Doc) (acc : RetryAcc) (e : BulkErr)
    (i : String) (d : Doc) (h : innerOf e = some (some i))
    (hl : idToDoc q0 i = some d) :
    classifyStep q0 acc e =
      Except.ok (if acc.aliased then { acc with post := acc.post ++ [d] }
                 else { acc with fresh := acc.fresh ++ [d] }) := by
  simp only [classifyStep, h, hl]
  split <;> rfl

lemma classifyStep_keyErr (q0 : List Doc) (acc : RetryAcc) (e : BulkErr)
    (i : String) (h : innerOf e = some (some i)) (hl : idToDoc q0 i = none) :
    classifyStep q0 acc e = Except.error SendErr.keyError := by
  simp [classifyStep, h, hl]

lemma classifyLoop_cons (q0 : List Doc) (e : BulkErr) (es : List BulkErr)
    (acc : RetryAcc) :
    classifyLoop q0 (e :: es) acc =
      match classifyStep q0 acc e with
      | Except.ok acc' => classifyLoop q0 es acc'
      | Except.error err => (acc, some err) := rfl

lemma classifyStep_aliased_mono (q0 : List Doc) (acc acc' : RetryAcc)
    (e : BulkErr) (h : classifyStep q0 acc e = Except.ok acc')
    (ha : acc.aliased = true) : acc'.aliased = true := by
  rcases hi : innerOf e with _ | ⟨_ | i⟩
  · rw [classifyStep_unknown q0 acc e hi] at h
    cases h
    rfl
  · rw [classifyStep_skip q0 acc e hi] at h
    cases h
    exact ha
  · rcases hl : idToDoc q0 i with _ | d
    · rw [classifyStep_keyErr q0 acc e i hi hl] at h
      cases h
    · rw [classifyStep_doc q0 acc e i d hi hl, if_pos ha] at h
      cases h
      exact ha

lemma classifyLoop_aliased_mono (q0 : List Doc) :
    ∀ (es : List BulkErr) (acc : RetryAcc), acc.aliased = true →
      ((classifyLoop q0 es acc).1).aliased = true := by
  intro es
  induction es with
  | nil => intro acc ha; exact ha
  | cons e es ih =>
    intro acc ha
    rcases hs : classifyStep q0 acc e with err | acc'
    · simp only [classifyLoop_cons, hs]
      exact ha
    · simp only [classifyLoop_cons, hs]
      exact ih acc' (classifyStep_aliased_mono q0 acc acc' e hs ha)

lemma classifyLoop_unknown_aliased (q0 : List Doc) :
    ∀ (es : List BulkErr) (acc accF : RetryAcc),
      (∃ e ∈ es, innerOf e = none) →
      classifyLoop q0 es acc = (accF, none) → accF.aliased = true := by
  intro es
  induction es with
  | nil => intro acc accF hex _; simp at hex
  | cons e es ih =>
    intro acc accF hex hr
    rcases hs : classifyStep q0 acc e with err | acc'
    · simp only [classifyLoop_cons, hs] at hr
      simp at hr
    · simp only [classifyLoop_cons, hs] at hr
      by_cases hu : innerOf e = none
      · have ha' : acc'.aliased = true := by
          rw [classifyStep_unknown q0 acc e hu] at hs
          cases hs
          rfl
        have := classifyLoop_aliased_mono q0 es acc' ha'
        rw [hr] at this
        exact this
      · rcases hex with ⟨x, hx, hxu⟩
        rcases List.mem_cons.mp hx with rfl | hx'
        · exact absurd hxu hu
        · exact ih acc' accF ⟨x, hx', hxu⟩ hr

lemma aliased_sendAgain (q0 : List Doc) (a : RetryAcc)
    (h : a.aliased = true) : sendAgainOf q0 a = q0 ++ a.post := by
  simp [sendAgainOf, h]

lemma classifyLoop_no_unknown (q0 : List Doc) :
    ∀ (es : List BulkErr) (acc : RetryAcc),
      acc.aliased = false → (∀ x ∈ es, innerOf x ≠ none) →
      ((classifyLoop q0 es acc).1).aliased = false ∧
      ((classifyLoop q0 es acc).1).post = acc.post := by
  intro es
  induction es with
  | nil => intro acc ha _; exact ⟨ha, rfl⟩
  | cons e es ih =>
    intro acc ha hno
    rcases hs : classifyStep q0 acc e with err | acc'
    · simp only [classifyLoop_cons, hs]
      exact ⟨ha, trivial⟩
    · simp only [classifyLoop_cons, hs]
      have he : innerOf e ≠ none := hno e (List.mem_cons_self e es)
      have hstep : acc'.aliased = false ∧ acc'.post = acc.post := by
        rcases hi : innerOf e with _ | ⟨_ | i⟩
        · exact absurd hi he
        · rw [classifyStep_skip q0 acc e hi] at hs
          cases hs
          exact ⟨ha, rfl⟩
        · rcases hl : idToDoc q0 i with _ | d
          · rw [classifyStep_keyErr q0 acc e i hi hl] at hs
            cases hs
          · rw [classifyStep_doc q0 acc e i d hi hl,
              if_neg (show ¬(acc.aliased = true) by simp [ha])] at hs
            cases hs
            exact ⟨ha, rfl⟩
      have := ih acc' hstep.1 (fun x hx => hno x (List.mem_cons_of_mem e hx))
      exact ⟨this.1, by rw [this.2, hstep.2]⟩

lemma classifyLoop_append (q0 : List Doc) :
    ∀ (es1 es2 : List BulkErr) (acc : RetryAcc),
      classifyLoop q0 (es1 ++ es2) acc =
        match classifyLoop q0 es1 acc with
        | (a, none) => classifyLoop q0 es2 a
        | (a, some err) => (a, some err) := by
  intro es1
  induction es1 with
  | nil => intro es2 acc; rfl
  | cons e es1 ih =>
    intro es2 acc
    show classifyLoop q0 (e :: (es1 ++ es2)) acc = _
    rcases hs : classifyStep q0 acc e with err | acc'
    · simp only [classifyLoop_cons, hs]
    · simp only [classifyLoop_cons, hs]
      exact ih es2 acc'

/-- C2: attribution in the retry-classification loop.  A failure entry
under an `index` or `delete` key carrying an identifier present in the
pending queue appends exactly that one document to the retry set; a
failure entry whose shape matches neither key makes the retry set cover
the whole original batch, and remains covering it through the rest of
the loop when it completes without raising. -/
theorem failure_attribution :
    (∀ (q0 : List Doc) (acc : RetryAcc) (e : BulkErr) (i : String) (d : Doc),
      innerOf e = some (some i) → idToDoc q0 i = some d →
      ∃ acc', classifyStep q0 acc e = Except.ok acc' ∧
        sendAgainOf q0 acc' = sendAgainOf q0 acc ++ [d]) ∧
    (∀ (q0 : List Doc) (es : List BulkErr) (accF : RetryAcc),
      (∃ e ∈ es, innerOf e = none) →
      classifyLoop q0 es initAcc = (accF, none) →
      q0 <+: sendAgainOf q0 accF) := by
  constructor
  · intro q0 acc e i d hi hl
    refine ⟨_, classifyStep_doc q0 acc e i d hi hl, ?_⟩
    by_cases ha : acc.aliased
    · rw [if_pos ha]
      simp [sendAgainOf, ha, List.append_assoc]
    · rw [if_neg ha]
      simp [sendAgainOf, ha]
  · intro q0 es accF hex hr
    have ha := classifyLoop_unknown_aliased q0 es initAcc accF hex hr
    rw [aliased_sendAgain q0 accF ha]
    exact ⟨accF.post, rfl⟩

/-- Witness for C2: a per-document failure entry for the sample document
appends exactly it, and a single unattributable entry makes the retry
set cover the whole batch. -/
theorem failure_attribution_witness :
    (∃ acc', classifyStep [sampleDoc] initAcc ⟨some (some "k:v"), none⟩ =
        Except.ok acc' ∧
      sendAgainOf [sampleDoc] acc' =
        sendAgainOf [sampleDoc] initAcc ++ [sampleDoc]) ∧
    [sampleDoc] <+:
      sendAgainOf [sampleDoc] (classifyLoop [sampleDoc] [⟨none, none⟩] initAcc).1 :=
  ⟨failure_attribution.1 [sampleDoc] initAcc ⟨some (some "k:v"), none⟩ "k:v"
      sampleDoc (by decide) (by decide),
   failure_attribution.2 [sampleDoc] [⟨none, none⟩]
      (classifyLoop [sampleDoc] [⟨none, none⟩] initAcc).1
      ⟨⟨none, none⟩, by decide, rfl⟩ rfl⟩

/-- Counterexample for C3: the retry set is not deduplicated by
identifier — two failure entries naming the same identifier `"k:v"`
yield the document twice — and a batch-level entry followed by a
per-document entry yields the original one-document batch plus a
duplicate, not exactly the original batch. -/
theorem retry_set_dedup_counterexample :
    sendAgainOf [sampleDoc]
      (classifyLoop [sampleDoc]
        [⟨some (some "k:v"), none⟩, ⟨some (some "k:v"), none⟩] initAcc).1 =
      [sampleDoc, sampleDoc] ∧
    sendAgainOf [sampleDoc]
      (classifyLoop [sampleDoc]
        [⟨none, none⟩, ⟨some (some "k:v"), none⟩] initAcc).1 =
      [sampleDoc, sampleDoc] ∧
    [sampleDoc, sampleDoc] ≠ [sampleDoc] ∧
    sampleDoc.id = sampleDoc.id := by
  refine ⟨rfl, rfl, by decide, rfl⟩

/-- C3 amended: the retry set may repeat an identifier (one occurrence
per failure entry naming it).  When every earlier entry is attributable
and the batch-level entry comes last, the retry set is exactly the
original batch; in general, once any entry forces whole-batch retry the
retry set contains the entire original batch as a prefix, with documents
of later per-document entries appended after it. -/
theorem retry_set_whole_batch_amended :
    (∀ (q0 : List Doc) (es : List BulkErr) (e : BulkErr) (accF : RetryAcc),
      innerOf e = none → (∀ x ∈ es, innerOf x ≠ none) →
      classifyLoop q0 (es ++ [e]) initAcc = (accF, none) →
      sendAgainOf q0 accF = q0) ∧
    (∀ (q0 : List Doc) (es : List BulkErr) (accF : RetryAcc),
      classifyLoop q0 es initAcc = (accF, none) →
      (∃ e ∈ es, innerOf e = none) →
      ∃ rest, sendAgainOf q0 accF = q0 ++ rest) := by
  constructor
  · intro q0 es e accF hu hno hr
    rw [classifyLoop_append] at hr
    rcases hm : classifyLoop q0 es initAcc with ⟨mid, merr⟩
    rw [hm] at hr
    cases merr with
    | some err => simp at hr
    | none =>
      have hmid := classifyLoop_no_unknown q0 es initAcc rfl hno
      rw [hm] at hmid
      simp only [classifyLoop_cons, classifyStep_unknown q0 mid e hu,
        classifyLoop] at hr
      cases hr
      rw [aliased_sendAgain _ _ rfl]
      have h2 : mid.post = ([] : List Doc) := hmid.2
      simp [h2]
  · intro q0 es accF hr hex
    have ha := classifyLoop_unknown_aliased q0 es initAcc accF hex hr
    exact ⟨accF.post, aliased_sendAgain q0 accF ha⟩

/-- Witness for C3 amended: with the batch-level entry last the retry
set is exactly the batch; with it first, the batch is still a prefix. -/
theorem retry_set_whole_batch_amended_witness :
    sendAgainOf [sampleDoc]
      (classifyLoop [sampleDoc]
        [⟨some (some "k:v"), none⟩, ⟨none, none⟩] initAcc).1 = [sampleDoc] ∧
    (∃ rest, sendAgainOf [sampleDoc]
      (classifyLoop [sampleDoc]
        [⟨none, none⟩, ⟨some (some "k:v"), none⟩] initAcc).1 =
      [sampleDoc] ++ rest) :=
  ⟨retry_set_whole_batch_amended.1 [sampleDoc] [⟨some (some "k:v"), none⟩]
      ⟨none, none⟩ _ rfl (by decide) rfl,
   retry_set_whole_batch_amended.2 [sampleDoc]
      [⟨none, none⟩, ⟨some (some "k:v"), none⟩] _ rfl
      ⟨⟨none, none⟩, by decide, rfl⟩⟩

/-! ### C4, C5: byte budget and threshold -/

lemma appendDocument_sumContrib (st : DocumentQueue) (d : Doc)
    (h : st.size = sumContrib st.queue) :
    (appendDocument st d).size = sumContrib (appendDocument st d).queue := by
  simp [appendDocument, sumContrib, h]

lemma sendAll_ok_sumContrib (st : DocumentQueue) (r1 r2 : List BulkErr)
    (hInv : st.size = sumContrib st.queue)
    (h : (sendAll st r1 r2).err = none) :
    (sendAll st r1 r2).state.size =
      sumContrib (sendAll st r1 r2).state.queue := by
  by_cases hq : st.queue = []
  · simpa [sendAll, hq] using hInv
  · rw [sendAll_ok_reset st r1 r2 hq h]
    simp [sumContrib]

lemma append_ok_sumContrib (st : DocumentQueue) (a : AppendArgs)
    (r1 r2 : List BulkErr) (hInv : st.size = sumContrib st.queue)
    (h : (append st a r1 r2).err = none) :
    (append st a r1 r2).state.size =
      sumContrib (append st a r1 r2).state.queue := by
  by_cases hv : a.versionId = VersionArg.vother
  · simp [append, hv] at h
  · by_cases he : pyStartsWith a.eventType createdPref ∨
        pyStartsWith a.eventType removedPref
    · by_cases hl : QUEUE_LIMIT_BYTES ≤ (appendDocument st (buildBody a)).size
      · have h1 := appendDocument_sumContrib st (buildBody a) hInv
        have hres : append st a r1 r2 =
            ⟨(sendAll (appendDocument st (buildBody a)) r1 r2).state,
             ((sendAll (appendDocument st (buildBody a)) r1 r2).err).map
               AppendErr.send,
             (sendAll (appendDocument st (buildBody a)) r1 r2).dispatches,
             1⟩ := by
          simp [append, hv, he, hl]
        rw [hres] at h ⊢
        simp only [Option.map_eq_none'] at h
        exact sendAll_ok_sumContrib (appendDocument st (buildBody a)) r1 r2 h1 h
      · have h1 := appendDocument_sumContrib st (buildBody a) hInv
        simpa [append, hv, he, hl] using h1
    · simpa [append, hv, he] using hInv

lemma runOps_sumContrib :
    ∀ (ops : List QOp) (st st' : DocumentQueue) (n : Nat),
      st.size = sumContrib st.queue → runOps st ops = some (st', n) →
      st'.size = sumContrib st'.queue := by
  intro ops
  induction ops with
  | nil =>
    intro st st' n h hr
    simp only [runOps, Option.some.injEq, Prod.mk.injEq] at hr
    rw [← hr.1]
    exact h
  | cons op ops ih =>
    intro st st' n h hr
    cases op with
    | opAppend a r1 r2 =>
      cases hE : (append st a r1 r2).err with
      | none =>
        simp only [runOps, hE] at hr
        rcases hrun : runOps (append st a r1 r2).state ops with _ | ⟨st1, n1⟩ <;>
          rw [hrun] at hr
        · simp at hr
        · simp only [Option.some.injEq, Prod.mk.injEq] at hr
          rw [← hr.1]
          exact ih (append st a r1 r2).state st1 n1
            (append_ok_sumContrib st a r1 r2 h hE) hrun
      | some e =>
        simp only [runOps, hE] at hr
        simp at hr
    | opAppendDoc d =>
      simp only [runOps] at hr
      rcases hrun : runOps (appendDocument st d) ops with _ | ⟨st1, n1⟩ <;>
        rw [hrun] at hr
      · simp at hr
      · simp only [Option.some.injEq, Prod.mk.injEq] at hr
        rw [← hr.1]
        exact ih (appendDocument st d) st1 n1
          (appendDocument_sumContrib st d h) hrun

/-- C4: after any sequence of `append` / `append_document` operations
from a fresh accumulator that completes without raising, the running
byte total equals the sum of `min(size, ELASTIC_LIMIT_BYTES)` over the
pending documents with non-empty content; and appending a document with
empty content never increases the total. -/
theorem budget_invariant :
    (∀ (ops : List QOp) (st : DocumentQueue) (n : Nat),
      runOps initQueue ops = some (st, n) →
      st.size = sumContrib st.queue) ∧
    (∀ (st : DocumentQueue) (d : Doc), d.content = "" →
      (appendDocument st d).size = st.size) := by
  constructor
  · intro ops st n hr
    exact runOps_sumContrib ops initQueue st n (by simp [initQueue, sumContrib]) hr
  · intro st d h
    simp [appendDocument, contrib, h]

/-- A concrete document whose content is empty. -/
def emptyTextDoc : Doc :=
  { sampleDoc with content := "", id := "k2:v", key := "k2" }

/-- Witness for C4: a concrete two-operation run satisfies the budget
equation, and appending the empty-content document leaves the total at
its old value. -/
theorem budget_invariant_witness :
    (appendDocument (appendDocument initQueue sampleDoc) emptyTextDoc).size =
      sumContrib
        (appendDocument (appendDocument initQueue sampleDoc) emptyTextDoc).queue ∧
    (appendDocument ⟨[sampleDoc], 5⟩ emptyTextDoc).size = (5 : Nat) :=
  ⟨budget_invariant.1 [QOp.opAppendDoc sampleDoc, QOp.opAppendDoc emptyTextDoc]
      (appendDocument (appendDocument initQueue sampleDoc) emptyTextDoc) 0 rfl,
   budget_invariant.2 ⟨[sampleDoc], 5⟩ emptyTextDoc rfl⟩

/-- C5: for any accumulator state, when `append` actually queues a
document (typed version id, recognized event) and the queueing brings
the running total to `QUEUE_LIMIT_BYTES` or beyond, exactly one
`send_all` flush is performed before `append` returns, and when that
flush completes without raising, the total is 0 and the queue is empty
afterwards; when the new total stays below the ceiling, no flush occurs
and the state is exactly the queued state. -/
theorem threshold_trigger (st : DocumentQueue) (a : AppendArgs)
    (r1 r2 : List BulkErr) (hv : a.versionId ≠ VersionArg.vother)
    (he : pyStartsWith a.eventType createdPref ∨
          pyStartsWith a.eventType removedPref) :
    (QUEUE_LIMIT_BYTES ≤ st.size + contrib (buildBody a) →
      (append st a r1 r2).flushes = 1 ∧
      ((append st a r1 r2).err = none →
        (append st a r1 r2).state.size = 0 ∧
        (append st a r1 r2).state.queue = [])) ∧
    (st.size + contrib (buildBody a) < QUEUE_LIMIT_BYTES →
      (append st a r1 r2).flushes = 0 ∧ (append st a r1 r2).err = none ∧
      (append st a r1 r2).state = appendDocument st (buildBody a)) := by
  constructor
  · intro hl
    have hl' : QUEUE_LIMIT_BYTES ≤ (appendDocument st (buildBody a)).size := hl
    have hres : append st a r1 r2 =
        ⟨(sendAll (appendDocument st (buildBody a)) r1 r2).state,
         ((sendAll (appendDocument st (buildBody a)) r1 r2).err).map
           AppendErr.send,
         (sendAll (appendDocument st (buildBody a)) r1 r2).dispatches,
         1⟩ := by
      simp [append, hv, he, hl']
    rw [hres]
    refine ⟨rfl, fun h => ?_⟩
    simp only [Option.map_eq_none'] at h
    have hq : (appendDocument st (buildBody a)).queue ≠ [] := by
      simp [appendDocument]
    rw [sendAll_ok_reset (appendDocument st (buildBody a)) r1 r2 hq h]
    exact ⟨rfl, rfl⟩
  · intro hl
    have hl' : ¬ QUEUE_LIMIT_BYTES ≤ (appendDocument st (buildBody a)).size :=
      Nat.not_le.mpr hl
    simp [append, hv, he, hl']

/-- Witness for C5: from a state already holding almost the whole
budget, a concrete `append` crossing the ceiling flushes once and (the
bulk responses being clean) resets the state; from a fresh state the
same `append` stays below the ceiling and does not flush. -/
theorem threshold_trigger_witness :
    ((append ⟨[], QUEUE_LIMIT_BYTES⟩
        ⟨"ObjectCreated:Put", 5, "lm", "b", ".txt", "k", "hello", "e",
          VersionArg.vstr "v", "t"⟩ [] []).flushes = 1 ∧
     (append ⟨[], QUEUE_LIMIT_BYTES⟩
        ⟨"ObjectCreated:Put", 5, "lm", "b", ".txt", "k", "hello", "e",
          VersionArg.vstr "v", "t"⟩ [] []).state.size = 0 ∧
     (append ⟨[], QUEUE_LIMIT_BYTES⟩
        ⟨"ObjectCreated:Put", 5, "lm", "b", ".txt", "k", "hello", "e",
          VersionArg.vstr "v", "t"⟩ [] []).state.queue = []) ∧
    ((append initQueue
        ⟨"ObjectCreated:Put", 5, "lm", "b", ".txt", "k", "hello", "e",
          VersionArg.vstr "v", "t"⟩ [] []).flushes = 0 ∧
     (append initQueue
        ⟨"ObjectCreated:Put", 5, "lm", "b", ".txt", "k", "hello", "e",
          VersionArg.vstr "v", "t"⟩ [] []).err = none) := by
  have h1 := threshold_trigger ⟨[], QUEUE_LIMIT_BYTES⟩
    ⟨"ObjectCreated:Put", 5, "lm", "b", ".txt", "k", "hello", "e",
      VersionArg.vstr "v", "t"⟩ [] [] (by decide) (Or.inl (by decide))
  have h2 := threshold_trigger initQueue
    ⟨"ObjectCreated:Put", 5, "lm", "b", ".txt", "k", "hello", "e",
      VersionArg.vstr "v", "t"⟩ [] [] (by decide) (Or.inl (by decide))
  have ha := h1.1 (by decide)
  have hb := ha.2 (by decide)
  have hc := h2.2 (by decide)
  exact ⟨⟨ha.1, hb.1, hb.2⟩, hc.1, hc.2.1⟩
